import Mathlib

/-!
Shallow embedding of `flask_script/commands.py` (the `flask-script` command
dispatch extension) and proofs of its specification claims.

Python values that flow through option defaults and application config are
modelled by `PyVal`; the `Option` descriptor class is embedded as `Opt`
(the name `Option` is taken by Lean core).  Side effects (printing, file
removal, launching shells, calling `app.run`) are modelled as returned
event lists; exceptions are modelled with `Except` or explicit outcome
types.
-/

namespace FlaskScript

/-- A Python value as used in this module: option defaults and config
entries are strings, ints or bools; `unset` marks an absent kwarg. -/
inductive PyVal where
  | str (s : String)
  | int (n : Int)
  | bool (b : Bool)
  | unset
  deriving DecidableEq, Repr

/-- Embeds the source class `Option` (renamed: `Option` is Lean core).
`args` holds the positional flag strings; the remaining fields are the
keyword arguments actually used in `commands.py` (`action`, `dest`,
`default`, `type`, `help`), `PyVal.unset` when not passed. -/
structure Opt where
  args : List String
  action : PyVal := PyVal.unset
  dest : PyVal := PyVal.unset
  default : PyVal := PyVal.unset
  type : PyVal := PyVal.unset
  help : PyVal := PyVal.unset
  deriving DecidableEq, Repr

/-- `firstMatches needle hay` holds when `needle` is an initial segment of
`hay` (character lists). -/
def firstMatches : List Char → List Char → Bool
  | [], _ => true
  | _ :: _, [] => false
  | a :: as, b :: bs => a == b && firstMatches as bs

/-- `containsSub hay needle`: Python's substring test `needle in hay` on
character lists. -/
def containsSub : List Char → List Char → Bool
  | [], needle => needle.isEmpty
  | c :: cs, needle => firstMatches needle (c :: cs) || containsSub cs needle

/-- Python's `sub in s` for strings. -/
def strContains (s sub : String) : Bool :=
  containsSub s.toList sub.toList

/-! ## `Command` base class: class-level option list and `add_option`

Python attribute semantics for `Command.option_list`: the class object owns
one list (`option_list = []`); an instance reads `self.option_list` from
its own `__dict__` first and falls back to the class attribute, and
`self.option_list.append(option)` mutates whichever list that lookup
finds in place. -/

/-- The class object of a `Command` subclass: owns the class-level
`option_list` attribute. -/
structure CommandClass where
  option_list : List Opt
  deriving DecidableEq, Repr

/-- A `Command` instance: `ownOptionList` is the instance `__dict__` entry
for `option_list` (`none` when the instance never set one, so attribute
lookup falls through to the class). -/
structure CommandInst where
  ownOptionList : Option (List Opt) := none
  deriving DecidableEq, Repr

/-- Attribute lookup `self.option_list`: instance dict first, then class. -/
def Command.optionListOf (cls : CommandClass) (inst : CommandInst) : List Opt :=
  match inst.ownOptionList with
  | some l => l
  | none => cls.option_list

/-- `Command.get_options`: `return self.option_list`. -/
def Command.get_options (cls : CommandClass) (inst : CommandInst) : List Opt :=
  Command.optionListOf cls inst

/-- `Command.add_option`: `self.option_list.append(option)` — appends in
place to the list found by attribute lookup, mutating the class-level list
when the instance has no own `option_list`. Returns the updated class
object and instance. -/
def Command.add_option (cls : CommandClass) (inst : CommandInst) (o : Opt) :
    CommandClass × CommandInst :=
  match inst.ownOptionList with
  | some l => (cls, { inst with ownOptionList := some (l ++ [o]) })
  | none => ({ cls with option_list := cls.option_list ++ [o] }, inst)

/-! ## `Command.handle`: request-context scoping

`handle` runs `self.run(*args, **kwargs)` inside
`with app.test_request_context():`.  Python's `with` statement calls
`__enter__` once, runs the body, and calls `__exit__` exactly once on
every exit path; an exception raised by the body propagates after
`__exit__` ran (the request context's `__exit__` does not suppress it).
Context events are recorded in a trace; a raised exception is an
`Outcome.err`. -/

/-- Observable events of a `handle` invocation: entering/exiting the test
request context of a given app, and the call to `run`. -/
inductive Ev where
  | enterCtx (app : String)
  | exitCtx (app : String)
  | runCall
  deriving DecidableEq, Repr

/-- Result of the body of a `with` block: normal return or raised
exception. -/
inductive Outcome (α : Type) where
  | ok (v : α)
  | err (e : String)
  deriving DecidableEq, Repr

/-- Python `with` semantics over an event trace: run `enter`, then the
body, then `exitf` — also when the body's outcome is an exception, which
propagates afterwards. -/
def pyWith {α : Type} (enter exitf : List Ev → List Ev)
    (body : List Ev → List Ev × Outcome α) (tr : List Ev) :
    List Ev × Outcome α :=
  let tr1 := enter tr
  let (tr2, out) := body tr1
  (exitf tr2, out)

/-- `__enter__` of `app.test_request_context()`. -/
def enterRequestCtx (app : String) (tr : List Ev) : List Ev :=
  tr ++ [Ev.enterCtx app]

/-- `__exit__` of `app.test_request_context()`. -/
def exitRequestCtx (app : String) (tr : List Ev) : List Ev :=
  tr ++ [Ev.exitCtx app]

/-- `Command.handle(app, *args, **kwargs)`: runs `self.run` inside
`with app.test_request_context():` and returns its result. -/
def Command.handle {α : Type} (app : String)
    (run : List Ev → List Ev × Outcome α) (tr : List Ev) :
    List Ev × Outcome α :=
  pyWith (enterRequestCtx app) (exitRequestCtx app) run tr

/-! ## Shell command

State (`Shell.__init__`): banner, a context factory (modelled by the value
`context` it returns — the namespace injected into the shell), and the
`use_ipython` / `use_bpython` preferences.  `Shell.run`'s side effects —
launching BPython, launching IPython, starting `code.interact` — are
modelled as an event list; the availability of the optional shells (the
`import` statements succeeding) comes from a `ShellEnv`. -/

/-- A `Shell` instance.  `κ` is the type of the namespace dict returned by
`make_context` (`get_context()` returns `context`). -/
structure Shell (κ : Type) where
  banner : String
  context : κ
  use_ipython : Bool
  use_bpython : Bool

/-- `Shell.get_options`: the `--no-ipython` and `--bpython` store-true
flags, each with default the negation of the configured preference. -/
def Shell.get_options {κ : Type} (sh : Shell κ) : List Opt :=
  [ { args := ["--no-ipython"],
      action := PyVal.str "store_true",
      dest := PyVal.str "no_ipython",
      default := PyVal.bool (!sh.use_ipython) },
    { args := ["--bpython"],
      action := PyVal.str "store_true",
      dest := PyVal.str "bpython",
      default := PyVal.bool (!sh.use_bpython) } ]

/-- Whether the optional alternate shells can be imported. -/
structure ShellEnv where
  bpythonAvailable : Bool
  ipythonAvailable : Bool
  deriving DecidableEq, Repr

/-- Side effects of `Shell.run`: `bpython.embed`, the IPython embedded
shell, or the stdlib `code.interact`, each receiving the banner and the
namespace context. -/
inductive ShellEv (κ : Type) where
  | bpythonEmbed (banner : String) (ctx : κ)
  | ipythonLaunch (banner : String) (ctx : κ)
  | codeInteract (banner : String) (ctx : κ)
  deriving DecidableEq, Repr

/-- `Shell.run(no_ipython, bpython)`.  Control flow of the source:
`if bpython:` try BPython, an `ImportError` is passed over — and either
way execution continues to `code.interact` (no `return` in this branch);
`elif not no_ipython:` try IPython and `return` after launching it, an
`ImportError` falls through; the final `code.interact(self.banner,
local=context)` runs in every remaining case. -/
def Shell.run {κ : Type} (env : ShellEnv) (sh : Shell κ)
    (no_ipython bpython : Bool) : List (ShellEv κ) :=
  -- context = self.get_context()
  let context := sh.context
  if bpython then
    -- try: from bpython import embed; embed(...) except ImportError: pass
    -- then fall through to code.interact
    (if env.bpythonAvailable
      then [ShellEv.bpythonEmbed sh.banner sh.context]
      else []) ++ [ShellEv.codeInteract sh.banner context]
  else if !no_ipython && env.ipythonAvailable then
    -- import IPython succeeded; sh(global_ns=dict(), local_ns=context); return
    [ShellEv.ipythonLaunch sh.banner context]
  else
    -- bpython not requested, and IPython disabled or unavailable
    [ShellEv.codeInteract sh.banner context]

/-! ## Server command -/

/-- A `Server` instance (`Server.__init__`): host/port defaults, the
debugger/reloader/threaded/processes/passthrough toggles and the extra
`**options` forwarded to `app.run`. -/
structure Server where
  host : String
  port : Int
  use_debugger : Bool
  use_reloader : Bool
  threaded : Bool
  processes : Int
  passthrough_errors : Bool
  server_options : List (String × PyVal)
  deriving DecidableEq, Repr

/-- `Server.get_options`: five fixed options, then the debug flag whose
name and action depend on `self.use_debugger`, then the reload flag whose
name and action depend on `self.use_reloader`. -/
def Server.get_options (s : Server) : List Opt :=
  let options : List Opt :=
    [ { args := ["-t", "--host"],
        dest := PyVal.str "host",
        default := PyVal.str s.host },
      { args := ["-p", "--port"],
        dest := PyVal.str "port",
        type := PyVal.str "int",
        default := PyVal.int s.port },
      { args := ["--threaded"],
        dest := PyVal.str "threaded",
        action := PyVal.str "store_true",
        default := PyVal.bool s.threaded },
      { args := ["--processes"],
        dest := PyVal.str "processes",
        type := PyVal.str "int",
        default := PyVal.int s.processes },
      { args := ["--passthrough-errors"],
        action := PyVal.str "store_true",
        dest := PyVal.str "passthrough_errors",
        default := PyVal.bool s.passthrough_errors } ]
  let options :=
    if s.use_debugger then
      options ++ [ { args := ["-d", "--no-debug"],
                     action := PyVal.str "store_false",
                     dest := PyVal.str "use_debugger",
                     default := PyVal.bool s.use_debugger } ]
    else
      options ++ [ { args := ["-d", "--debug"],
                     action := PyVal.str "store_true",
                     dest := PyVal.str "use_debugger",
                     default := PyVal.bool s.use_debugger } ]
  let options :=
    if s.use_reloader then
      options ++ [ { args := ["-r", "--no-reload"],
                     action := PyVal.str "store_false",
                     dest := PyVal.str "use_reloader",
                     default := PyVal.bool s.use_reloader } ]
    else
      options ++ [ { args := ["-r", "--reload"],
                     action := PyVal.str "store_true",
                     dest := PyVal.str "use_reloader",
                     default := PyVal.bool s.use_reloader } ]
  options

/-- The Flask application as `Server.handle` sees it: its `config`
mapping. -/
structure App where
  config : List (String × PyVal)
  deriving DecidableEq, Repr

/-- `app.config.get(key, default)`: dict lookup with a default. -/
def App.configGet (app : App) (key : String) (dflt : PyVal) : PyVal :=
  match app.config.find? (fun kv => kv.fst == key) with
  | some kv => kv.snd
  | none => dflt

/-- One invocation of `app.run(...)` with the keyword arguments
`Server.handle` passes. -/
structure RunCall where
  host : String
  port : Int
  debug : PyVal
  use_debugger : Bool
  use_reloader : Bool
  threaded : Bool
  processes : Int
  passthrough_errors : Bool
  options : List (String × PyVal)
  deriving DecidableEq, Repr

/-- `Server.handle`: runs the app directly, with no request context — the
returned trace holds the context events (none) and the `app.run` calls
made (exactly one). -/
def Server.handle (s : Server) (app : App) (host : String) (port : Int)
    (use_debugger use_reloader threaded : Bool) (processes : Int)
    (passthrough_errors : Bool) : List Ev × List RunCall :=
  ([],
   [ { host := host,
       port := port,
       debug := app.configGet "DEBUG" (PyVal.bool use_debugger),
       use_debugger := use_debugger,
       use_reloader := use_reloader,
       threaded := threaded,
       processes := processes,
       passthrough_errors := passthrough_errors,
       options := s.server_options } ])

/-! ## `argparse.ArgumentParser` model and `Command.create_parser`

`create_parser` delegates to the external `argparse` library:
`ArgumentParser(prog=prog, description=self.description)` followed by one
`add_argument(*option.args, **option.kwargs)` per option.  The library is
modelled from its documented behaviour: arguments are stored in addition
order, and `add_argument` with the default conflict handler (`'error'`,
not overridden by `create_parser`) raises `ArgumentError` when one of the
new option strings is already taken by an earlier argument (positional
names do not conflict). -/

/-- An argument parser: program name, description, and the argument specs
in the order they were added. -/
structure ArgumentParser where
  prog : String
  description : String
  actions : List Opt
  deriving DecidableEq, Repr

/-- Whether an `args` entry is an option string (begins with `-`). -/
def isFlagString (a : String) : Bool :=
  match a.toList with
  | [] => false
  | c :: _ => c == '-'

/-- The option strings of a spec: the `args` entries that begin with
`-` (positional names are not option strings). -/
def optionStrings (o : Opt) : List String :=
  o.args.filter isFlagString

/-- Whether two argument specs share an option string. -/
def sharesOptionString (a b : Opt) : Bool :=
  (optionStrings a).any (fun f => (optionStrings b).contains f)

/-- `parser.add_argument(*o.args, **o.kwargs)` under the default
`conflict_handler='error'`: raises on a conflicting option string,
otherwise appends the spec. -/
def ArgumentParser.add_argument (p : ArgumentParser) (o : Opt) :
    Except String ArgumentParser :=
  if p.actions.any (fun a => sharesOptionString a o) then
    Except.error "argparse.ArgumentError: conflicting option string"
  else
    Except.ok { p with actions := p.actions ++ [o] }

/-- The `for option in self.get_options(): parser.add_argument(...)` loop:
a raised `ArgumentError` propagates, aborting the loop. -/
def addArguments (p : ArgumentParser) : List Opt → Except String ArgumentParser
  | [] => Except.ok p
  | o :: os =>
    match p.add_argument o with
    | Except.ok p' => addArguments p' os
    | Except.error e => Except.error e

/-- `Command.create_parser(prog)`: build the parser from the command's
description and declared options, adding each in declaration order; an
`ArgumentError` from the library propagates out. -/
def Command.create_parser (description : String) (options : List Opt)
    (prog : String) : Except String ArgumentParser :=
  addArguments { prog := prog, description := description, actions := [] }
    options

/-- Parsing a `store_true` flag from an argv: the stored constant `True`
when one of its option strings is present, the declared default
otherwise (`argparse` semantics for `action='store_true'`). -/
def parseStoreTrueFlag (o : Opt) (argv : List String) : Bool :=
  if argv.any (fun a => o.args.contains a) then
    true
  else
    match o.default with
    | PyVal.bool b => b
    | _ => false

/-! ## Clean command

`Clean.run` iterates `os.walk('.')` and for every file whose name contains
the substring `".pyc"` prints and removes `os.path.join(dirpath,
filename)`.  The filesystem is modelled by the walk listing — the
`(dirpath, filenames)` pairs `os.walk` yields — and the effect of `run`
by the list of removed full pathnames. -/

/-- `os.path.join(dirpath, filename)` for the paths `os.walk` yields. -/
def pathJoin (dirpath filename : String) : String :=
  dirpath ++ "/" ++ filename

/-- `Clean.run`: the full pathnames removed (and printed), in walk
order. -/
def Clean.run (walk : List (String × List String)) : List String :=
  walk.foldl
    (fun acc dir =>
      acc ++ (dir.snd.filterMap (fun filename =>
        if strContains filename ".pyc" then
          some (pathJoin dir.fst filename)
        else
          none)))
    []

/-! ## ShowUrls command

`ShowUrls.run(order)` sorts `current_app.url_map.iter_rules()` by
`getattr(rule, order)` and prints a two-column listing.  A routing rule is
modelled by its `rule` (the URL pattern, which is also what `"%-30s" %
rule` renders) and its `endpoint`; `getattr` on any other attribute name
raises `AttributeError`. -/

/-- A `werkzeug` routing rule as `ShowUrls` consumes it. -/
structure Rule where
  rule : String
  endpoint : String
  deriving DecidableEq, Repr

/-- `getattr(rule, order)`: `none` models an `AttributeError`. -/
def ruleGetattr (r : Rule) (name : String) : Option String :=
  if name = "rule" then some r.rule
  else if name = "endpoint" then some r.endpoint
  else none

/-- Lexicographic (code-point) comparison of character lists: Python's
`<` on strings. -/
def charListLt : List Char → List Char → Bool
  | [], [] => false
  | [], _ :: _ => true
  | _ :: _, [] => false
  | a :: as, b :: bs =>
    Nat.blt a.toNat b.toNat || (a.toNat == b.toNat && charListLt as bs)

/-- Python's `<` on strings. -/
def strLt (a b : String) : Bool :=
  charListLt a.toList b.toList

/-- Stable insertion into a key-sorted list: the new element goes after
existing elements whose key is not greater (Python's `sorted` is
stable). -/
def insertByKey (key : Rule → String) (r : Rule) :
    List Rule → List Rule
  | [] => [r]
  | x :: xs =>
    if strLt (key x) (key r) then x :: insertByKey key r xs
    else r :: x :: xs

/-- Stable sort by key, modelling `sorted(rules, key=...)`. -/
def sortByKey (key : Rule → String) : List Rule → List Rule
  | [] => []
  | x :: xs => insertByKey key x (sortByKey key xs)

/-- Left-justify to `width` characters: Python's `"%-30s" % s`. -/
def ljust (s : String) (width : Nat) : String :=
  s ++ String.mk (List.replicate (width - s.length) ' ')

/-- One output row: `print "%-30s" % rule, rule.endpoint`. -/
def urlRow (r : Rule) : String :=
  ljust r.rule 30 ++ " " ++ r.endpoint

/-- `ShowUrls.run(order)`: the printed lines, or the `AttributeError`
raised when some rule lacks the `order` attribute (`sorted` calls the key
function on every element before comparing, and on none when the list is
empty). -/
def ShowUrls.run (rules : List Rule) (order : String) :
    Except String (List String) :=
  if rules.all (fun r => (ruleGetattr r order).isSome) then
    Except.ok
      ((ljust "Rule" 30 ++ " " ++ "Endpoint")
        :: String.mk (List.replicate 80 '-')
        :: (sortByKey (fun r => (ruleGetattr r order).getD "") rules).map urlRow)
  else
    Except.error "AttributeError"

/-! ## Helper observations used by the theorems -/

/-- The options of a list that expose a given flag string. -/
def optsWithFlag (opts : List Opt) (flag : String) : List Opt :=
  opts.filter (fun o => o.args.contains flag)

/-- C1: For every `Server` instance, `get_options()` exposes
`-d`/`--no-debug` (store-false, dest `use_debugger`) and no `--debug`
flag exactly when the configured `use_debugger` default is true, and
`-d`/`--debug` (store-true) with no `--no-debug` otherwise; the same
polarity rule holds for `-r`/`--no-reload` versus `-r`/`--reload` and
`use_reloader`. -/
theorem server_get_options_flag_polarity (s : Server) :
    (optsWithFlag (Server.get_options s) "--no-debug" =
      (if s.use_debugger then
        [{ args := ["-d", "--no-debug"], action := PyVal.str "store_false",
           dest := PyVal.str "use_debugger",
           default := PyVal.bool s.use_debugger }]
       else [])) ∧
    (optsWithFlag (Server.get_options s) "--debug" =
      (if s.use_debugger then []
       else
        [{ args := ["-d", "--debug"], action := PyVal.str "store_true",
           dest := PyVal.str "use_debugger",
           default := PyVal.bool s.use_debugger }])) ∧
    (optsWithFlag (Server.get_options s) "--no-reload" =
      (if s.use_reloader then
        [{ args := ["-r", "--no-reload"], action := PyVal.str "store_false",
           dest := PyVal.str "use_reloader",
           default := PyVal.bool s.use_reloader }]
       else [])) ∧
    (optsWithFlag (Server.get_options s) "--reload" =
      (if s.use_reloader then []
       else
        [{ args := ["-r", "--reload"], action := PyVal.str "store_true",
           dest := PyVal.str "use_reloader",
           default := PyVal.bool s.use_reloader }])) := by
  obtain ⟨h, p, ud, ur, th, pr, pe, so⟩ := s
  cases ud <;> cases ur <;> exact ⟨rfl, rfl, rfl, rfl⟩

/-- C2: `Command.handle(app, ...)` enters the request context bound to
`app` exactly once before `run` is called and exits it exactly once
afterwards, on both exit paths: when `run` returns normally `handle`
returns its result, and when `run` raises the exception propagates with
the context still exited. -/
theorem command_handle_context_lifecycle {α : Type} (app : String) (v : α)
    (e : String) (tr : List Ev) :
    (Command.handle app (fun t => (t ++ [Ev.runCall], Outcome.ok v)) tr =
       (tr ++ [Ev.enterCtx app, Ev.runCall, Ev.exitCtx app], Outcome.ok v)) ∧
    (Command.handle app (fun t => (t ++ [Ev.runCall], (Outcome.err e : Outcome α))) tr =
       (tr ++ [Ev.enterCtx app, Ev.runCall, Ev.exitCtx app], (Outcome.err e : Outcome α))) ∧
    ([Ev.enterCtx app, Ev.runCall, Ev.exitCtx app].count (Ev.enterCtx app) = 1) ∧
    ([Ev.enterCtx app, Ev.runCall, Ev.exitCtx app].count (Ev.exitCtx app) = 1) := by
  refine ⟨?_, ?_, ?_, ?_⟩
  · simp [Command.handle, pyWith, enterRequestCtx, exitRequestCtx]
  · simp [Command.handle, pyWith, enterRequestCtx, exitRequestCtx]
  · simp [List.count_cons, List.count_nil]
  · simp [List.count_cons, List.count_nil]

/-- C3 (counterexample): with the bpython flag set and BPython available,
`Shell.run` launches the BPython shell and *then also* starts the baseline
`code.interact` interpreter — the bpython branch has no early return — so
the baseline interpreter does not run only as the final fall-through. -/
theorem shell_run_bpython_then_interpreter :
    Shell.run { bpythonAvailable := true, ipythonAvailable := true }
        ({ banner := "", context := "ctx", use_ipython := true,
           use_bpython := false } : Shell String) false true =
      [ShellEv.bpythonEmbed "" "ctx", ShellEv.codeInteract "" "ctx"] ∧
    ShellEv.codeInteract "" "ctx" ∈
      Shell.run { bpythonAvailable := true, ipythonAvailable := true }
        ({ banner := "", context := "ctx", use_ipython := true,
           use_bpython := false } : Shell String) false true := by
  exact ⟨rfl, by decide⟩

/-- C3 (amended): `Shell.run` builds the context once via the factory and
follows the chain: if the bpython flag is set it attempts BPython,
silently skipping it when unavailable, and in either case then starts the
baseline interpreter; otherwise, if ipython is not disabled and IPython is
available, it launches IPython and returns immediately; in every remaining
case the baseline interpreter runs last, seeded with the context and
banner. An unavailable alternate shell never raises out of `run` (the
modelled `run` is total and always launches some shell). -/
theorem shell_run_fallback_chain {κ : Type} (env : ShellEnv) (sh : Shell κ)
    (ni bp : Bool) :
    (Shell.run env sh ni bp ≠ []) ∧
    (ShellEv.bpythonEmbed sh.banner sh.context ∈ Shell.run env sh ni bp ↔
       bp = true ∧ env.bpythonAvailable = true) ∧
    (ShellEv.ipythonLaunch sh.banner sh.context ∈ Shell.run env sh ni bp ↔
       bp = false ∧ ni = false ∧ env.ipythonAvailable = true) ∧
    (bp = false ∧ ni = false ∧ env.ipythonAvailable = true →
       Shell.run env sh ni bp = [ShellEv.ipythonLaunch sh.banner sh.context]) ∧
    (¬ (bp = false ∧ ni = false ∧ env.ipythonAvailable = true) →
       (Shell.run env sh ni bp).getLast? =
         some (ShellEv.codeInteract sh.banner sh.context)) := by
  obtain ⟨ba, ia⟩ := env
  cases ba <;> cases ia <;> cases ni <;> cases bp <;>
    simp [Shell.run]

/-- Witness for the amended C3 theorem at concrete inputs: IPython
available and not disabled launches only IPython; with BPython requested
and unavailable the baseline interpreter runs last. -/
theorem shell_run_fallback_chain_witness :
    (Shell.run { bpythonAvailable := false, ipythonAvailable := true }
        ({ banner := "b", context := "c", use_ipython := true,
           use_bpython := false } : Shell String) false false =
      [ShellEv.ipythonLaunch "b" "c"]) ∧
    ((Shell.run { bpythonAvailable := false, ipythonAvailable := true }
        ({ banner := "b", context := "c", use_ipython := true,
           use_bpython := false } : Shell String) false true).getLast? =
      some (ShellEv.codeInteract "b" "c")) := by
  refine ⟨?_, ?_⟩
  · exact (shell_run_fallback_chain
      { bpythonAvailable := false, ipythonAvailable := true }
      ({ banner := "b", context := "c", use_ipython := true,
         use_bpython := false } : Shell String) false false).2.2.2.1
      ⟨rfl, rfl, rfl⟩
  · exact (shell_run_fallback_chain
      { bpythonAvailable := false, ipythonAvailable := true }
      ({ banner := "b", context := "c", use_ipython := true,
         use_bpython := false } : Shell String) false true).2.2.2.2
      (by simp)

/-- Folding list appends equals one flattened append. -/
theorem foldl_append_eq {α β : Type} (g : β → List α) :
    ∀ (walk : List β) (acc : List α),
      walk.foldl (fun acc d => acc ++ g d) acc = acc ++ walk.flatMap g := by
  intro walk
  induction walk with
  | nil => intro acc; simp
  | cons d ds ih => intro acc; simp [ih, List.append_assoc]

/-- `filterMap` of a guarded `some` is `map` after `filter`. -/
theorem filterMap_guard_eq_map_filter {α β : Type} (p : α → Bool) (m : α → β)
    (l : List α) :
    l.filterMap (fun a => if p a then some (m a) else none) =
      (l.filter p).map m := by
  induction l with
  | nil => rfl
  | cons a l ih =>
    by_cases h : p a <;> simp [List.filter_cons, h, ih]

/-- C4: `Clean.run` removes exactly the files whose filename contains the
substring `.pyc` — per walked directory, the `.pyc`-containing filenames
joined with their directory path, in walk order — and nothing else; on the
tree `./a.pyc`, `./b.txt`, `./sub/c.pyc` it removes the two `.pyc` files
and leaves `b.txt` untouched. -/
theorem clean_run_removes_exactly_pyc (walk : List (String × List String)) :
    (Clean.run walk =
      walk.flatMap (fun d =>
        (d.snd.filter (fun f => strContains f ".pyc")).map (pathJoin d.fst))) ∧
    (Clean.run [(".", ["a.pyc", "b.txt"]), ("./sub", ["c.pyc"])] =
      ["./a.pyc", "./sub/c.pyc"]) ∧
    ("./b.txt" ∉ Clean.run [(".", ["a.pyc", "b.txt"]), ("./sub", ["c.pyc"])]) := by
  refine ⟨?_, rfl, by decide⟩
  unfold Clean.run
  rw [foldl_append_eq]
  simp [filterMap_guard_eq_map_filter]

/-- Adding pairwise non-conflicting options to a parser whose existing
arguments do not conflict with them appends them all, in order. -/
theorem addArguments_ok :
    ∀ (options : List Opt) (p : ArgumentParser),
      (∀ a ∈ p.actions, ∀ o ∈ options, sharesOptionString a o = false) →
      options.Pairwise (fun a b => sharesOptionString a b = false) →
      addArguments p options = Except.ok { p with actions := p.actions ++ options } := by
  intro options
  induction options with
  | nil => intro p _ _; simp [addArguments]
  | cons o os ih =>
    intro p hp ho
    obtain ⟨ho1, ho2⟩ := List.pairwise_cons.mp ho
    have hcond : p.actions.any (fun a => sharesOptionString a o) = false := by
      simp only [List.any_eq_false]
      intro a ha
      simp [hp a ha o (List.mem_cons_self o os)]
    have hadd : p.add_argument o =
        Except.ok { p with actions := p.actions ++ [o] } := by
      unfold ArgumentParser.add_argument
      rw [hcond]
      rfl
    have hrest := ih { p with actions := p.actions ++ [o] }
      (by
        intro a ha x hx
        rcases List.mem_append.mp ha with h1 | h1
        · exact hp a h1 x (List.mem_cons_of_mem o hx)
        · have : a = o := by simpa using h1
          subst this
          exact ho1 x hx)
      ho2
    simp only [addArguments, hadd, hrest]
    simp [List.append_assoc]

/-- If some already-registered argument conflicts with some pending
option, the loop raises. -/
theorem addArguments_error_of_action_conflict :
    ∀ (options : List Opt) (p : ArgumentParser),
      (∃ a ∈ p.actions, ∃ x ∈ options, sharesOptionString a x = true) →
      ∃ e, addArguments p options = Except.error e := by
  intro options
  induction options with
  | nil => intro p h; simp at h
  | cons o os ih =>
    intro p h
    obtain ⟨a, ha, x, hx, hconf⟩ := h
    by_cases hc : p.actions.any (fun a => sharesOptionString a o) = true
    · refine ⟨"argparse.ArgumentError: conflicting option string", ?_⟩
      unfold addArguments ArgumentParser.add_argument
      rw [hc]
      rfl
    · have hx' : x ∈ os := by
        rcases List.mem_cons.mp hx with h1 | h1
        · exfalso
          apply hc
          subst h1
          exact List.any_eq_true.mpr ⟨a, ha, hconf⟩
        · exact h1
      have hadd : p.add_argument o =
          Except.ok { p with actions := p.actions ++ [o] } := by
        unfold ArgumentParser.add_argument
        rw [Bool.not_eq_true] at hc
        rw [hc]
        rfl
      obtain ⟨e, he⟩ := ih { p with actions := p.actions ++ [o] }
        ⟨a, by simp [ha], x, hx', hconf⟩
      exact ⟨e, by simp only [addArguments, hadd, he]⟩

/-- A pairwise conflict among the pending options makes the loop raise. -/
theorem addArguments_error_of_not_pairwise :
    ∀ (options : List Opt) (p : ArgumentParser),
      ¬ options.Pairwise (fun a b => sharesOptionString a b = false) →
      ∃ e, addArguments p options = Except.error e := by
  intro options
  induction options with
  | nil => intro p h; exact absurd List.Pairwise.nil h
  | cons o os ih =>
    intro p h
    by_cases hc : p.actions.any (fun a => sharesOptionString a o) = true
    · refine ⟨"argparse.ArgumentError: conflicting option string", ?_⟩
      unfold addArguments ArgumentParser.add_argument
      rw [hc]
      rfl
    · have hadd : p.add_argument o =
          Except.ok { p with actions := p.actions ++ [o] } := by
        unfold ArgumentParser.add_argument
        rw [Bool.not_eq_true] at hc
        rw [hc]
        rfl
      by_cases hhead : ∀ x ∈ os, sharesOptionString o x = false
      · have htail : ¬ os.Pairwise (fun a b => sharesOptionString a b = false) := by
          intro hp
          exact h (List.pairwise_cons.mpr ⟨hhead, hp⟩)
        obtain ⟨e, he⟩ := ih { p with actions := p.actions ++ [o] } htail
        exact ⟨e, by simp only [addArguments, hadd, he]⟩
      · push_neg at hhead
        obtain ⟨x, hx, hconf⟩ := hhead
        obtain ⟨e, he⟩ := addArguments_error_of_action_conflict os
          { p with actions := p.actions ++ [o] }
          ⟨o, by simp, x, hx, by simpa using hconf⟩
        exact ⟨e, by simp only [addArguments, hadd, he]⟩

/-- C5 (counterexample): two declared options sharing the flag `-x` do not
leave the first-declared one in force — `create_parser` propagates the
parser library's conflict error and yields no parser at all. -/
theorem create_parser_collision_raises :
    Command.create_parser "desc"
      [{ args := ["-x", "--ex"] }, { args := ["-x", "--ex2"] }] "prog" =
      Except.error "argparse.ArgumentError: conflicting option string" := rfl

/-- C5 (amended): `create_parser(prog)` builds a parser whose description
equals the command's description and which registers exactly the declared
options, in declaration order, whenever no two of them share an option
string; when two declared options collide on a flag name, the parser
library's conflict error (argparse's default `'error'` conflict handler)
propagates out of `create_parser` instead of the first-declared option
silently taking precedence. -/
theorem create_parser_declared_options (description prog : String)
    (options : List Opt) :
    (options.Pairwise (fun a b => sharesOptionString a b = false) →
      Command.create_parser description options prog =
        Except.ok { prog := prog, description := description,
                    actions := options }) ∧
    (¬ options.Pairwise (fun a b => sharesOptionString a b = false) →
      ∃ e, Command.create_parser description options prog = Except.error e) := by
  constructor
  · intro h
    unfold Command.create_parser
    rw [addArguments_ok options _ (by intro a ha; simp at ha) h]
    rfl
  · intro h
    exact addArguments_error_of_not_pairwise options _ h

/-- Witness for the amended C5 theorem: two distinct flags are both
registered in order; a duplicated flag makes `create_parser` raise. -/
theorem create_parser_declared_options_witness :
    (Command.create_parser "d"
      [{ args := ["-a"] }, { args := ["-b"] }] "p" =
      Except.ok { prog := "p", description := "d",
                  actions := [{ args := ["-a"] }, { args := ["-b"] }] }) ∧
    (∃ e, Command.create_parser "d"
      [{ args := ["-a"] }, { args := ["-a"] }] "p" = Except.error e) := by
  constructor
  · exact (create_parser_declared_options "d" "p"
      [{ args := ["-a"] }, { args := ["-b"] }]).1 (by decide)
  · exact (create_parser_declared_options "d" "p"
      [{ args := ["-a"] }, { args := ["-a"] }]).2 (by decide)

/-- The `dict.get` model agrees with association-list lookup. -/
theorem configGet_eq_lookup (config : List (String × PyVal)) (key : String)
    (dflt : PyVal) :
    App.configGet { config := config } key dflt =
      (config.lookup key).getD dflt := by
  induction config with
  | nil => rfl
  | cons kv rest ih =>
    obtain ⟨k, v⟩ := kv
    by_cases h : k = key
    · subst h
      simp [App.configGet, List.find?, List.lookup]
    · simp only [App.configGet, List.find?, List.lookup] at ih ⊢
      have h1 : (k == key) = false := by simp [h]
      have h2 : (key == k) = false := by simp [Ne.symm h]
      rw [h1, h2]
      simpa [App.configGet, List.find?] using ih

/-- C6: `Server.handle` enters no request context and calls `app.run`
exactly once, passing through host, port, the resolved toggles and the
instance's extra server options; its `debug` argument is the
application's `DEBUG` config value when that key is present and the
resolved `use_debugger` value otherwise. -/
theorem server_handle_runs_app_directly (s : Server) (app : App)
    (host : String) (port : Int) (ud ur th : Bool) (pr : Int) (pe : Bool) :
    ((Server.handle s app host port ud ur th pr pe).1 = []) ∧
    ((Server.handle s app host port ud ur th pr pe).2 =
      [{ host := host, port := port,
         debug := (app.config.lookup "DEBUG").getD (PyVal.bool ud),
         use_debugger := ud, use_reloader := ur, threaded := th,
         processes := pr, passthrough_errors := pe,
         options := s.server_options }]) ∧
    (app.config.lookup "DEBUG" = none →
      (Server.handle s app host port ud ur th pr pe).2.map RunCall.debug =
        [PyVal.bool ud]) ∧
    (∀ v, app.config.lookup "DEBUG" = some v →
      (Server.handle s app host port ud ur th pr pe).2.map RunCall.debug =
        [v]) := by
  obtain ⟨config⟩ := app
  refine ⟨rfl, ?_, ?_, ?_⟩
  · simp [Server.handle, configGet_eq_lookup]
  · intro h
    simp [Server.handle, configGet_eq_lookup, h]
  · intro v h
    simp [Server.handle, configGet_eq_lookup, h]

/-- Witness for C6 at concrete inputs: with `DEBUG` set in the config the
`debug` argument is that value; with an empty config it is the resolved
`use_debugger`. -/
theorem server_handle_runs_app_directly_witness :
    ((Server.handle
        { host := "127.0.0.1", port := 5000, use_debugger := true,
          use_reloader := true, threaded := false, processes := 1,
          passthrough_errors := false, server_options := [] }
        { config := [("DEBUG", PyVal.bool false)] }
        "127.0.0.1" 5000 true true false 1 false).2.map RunCall.debug =
      [PyVal.bool false]) ∧
    ((Server.handle
        { host := "127.0.0.1", port := 5000, use_debugger := true,
          use_reloader := true, threaded := false, processes := 1,
          passthrough_errors := false, server_options := [] }
        { config := [] }
        "127.0.0.1" 5000 true true false 1 false).2.map RunCall.debug =
      [PyVal.bool true]) := by
  constructor
  · exact (server_handle_runs_app_directly
      { host := "127.0.0.1", port := 5000, use_debugger := true,
        use_reloader := true, threaded := false, processes := 1,
        passthrough_errors := false, server_options := [] }
      { config := [("DEBUG", PyVal.bool false)] }
      "127.0.0.1" 5000 true true false 1 false).2.2.2
      (PyVal.bool false) rfl
  · exact (server_handle_runs_app_directly
      { host := "127.0.0.1", port := 5000, use_debugger := true,
        use_reloader := true, threaded := false, processes := 1,
        passthrough_errors := false, server_options := [] }
      { config := [] }
      "127.0.0.1" 5000 true true false 1 false).2.2.1 rfl

/-- C7: `ShowUrls.run(order)` sorts the route table by the attribute named
by `order` — raising an uncaught attribute error when an entry lacks it —
and prints a fixed-width two-column listing (rule pattern, endpoint)
preceded by a header and a separator line; with the default order key
`rule` and patterns `/a`, `/c`, `/b` the rows come out as `/a`, `/b`,
`/c`. -/
theorem showurls_run_sorted_listing (rules : List Rule) (order : String) :
    (ShowUrls.run rules "rule" =
      Except.ok ((ljust "Rule" 30 ++ " " ++ "Endpoint")
        :: String.mk (List.replicate 80 '-')
        :: (sortByKey (fun r => r.rule) rules).map urlRow)) ∧
    ((∃ r ∈ rules, ruleGetattr r order = none) →
      ShowUrls.run rules order = Except.error "AttributeError") ∧
    (ShowUrls.run
        [{ rule := "/a", endpoint := "ea" }, { rule := "/c", endpoint := "ec" },
         { rule := "/b", endpoint := "eb" }] "rule" =
      Except.ok [ljust "Rule" 30 ++ " " ++ "Endpoint",
                 String.mk (List.replicate 80 '-'),
                 urlRow { rule := "/a", endpoint := "ea" },
                 urlRow { rule := "/b", endpoint := "eb" },
                 urlRow { rule := "/c", endpoint := "ec" }]) := by
  refine ⟨?_, ?_, rfl⟩
  · simp [ShowUrls.run, ruleGetattr]
  · intro h
    obtain ⟨r, hr, hnone⟩ := h
    unfold ShowUrls.run
    rw [if_neg (by
      simp only [List.all_eq_true]
      intro hall
      have h2 := hall r hr
      rw [hnone] at h2
      simp at h2)]

/-- Witness for C7 at a concrete input: a sort key that is not an
attribute of the rule entries raises the attribute error. -/
theorem showurls_run_sorted_listing_witness :
    ShowUrls.run [{ rule := "/a", endpoint := "ea" }] "nope" =
      Except.error "AttributeError" :=
  (showurls_run_sorted_listing [{ rule := "/a", endpoint := "ea" }] "nope").2.1
    ⟨{ rule := "/a", endpoint := "ea" }, by simp, rfl⟩

/-- C8: `Shell.get_options` returns exactly two store-true options —
`--no-ipython` with dest `no_ipython` and `--bpython` with dest
`bpython` — whose defaults are the negations of the configured
`use_ipython` and `use_bpython` preferences. -/
theorem shell_get_options_negated_defaults {κ : Type} (sh : Shell κ) :
    ((Shell.get_options sh).length = 2) ∧
    ((Shell.get_options sh).map Opt.args = [["--no-ipython"], ["--bpython"]]) ∧
    ((Shell.get_options sh).map Opt.action =
      [PyVal.str "store_true", PyVal.str "store_true"]) ∧
    ((Shell.get_options sh).map Opt.dest =
      [PyVal.str "no_ipython", PyVal.str "bpython"]) ∧
    ((Shell.get_options sh).map Opt.default =
      [PyVal.bool (!sh.use_ipython), PyVal.bool (!sh.use_bpython)]) :=
  ⟨rfl, rfl, rfl, rfl, rfl⟩

/-- C9: for two instances of the same `Command` subclass, neither of which
defines its own `option_list`, `add_option` on one instance changes what
`get_options()` returns on the other — the class-level option list is
shared mutable state, not per-instance state. -/
theorem add_option_shared_class_state (optList : List Opt) (o : Opt) :
    (Command.get_options
        (Command.add_option { option_list := optList }
          { ownOptionList := none } o).1
        { ownOptionList := none } =
      optList ++ [o]) ∧
    (Command.get_options
        (Command.add_option { option_list := optList }
          { ownOptionList := none } o).1
        { ownOptionList := none } ≠
      Command.get_options { option_list := optList }
        { ownOptionList := none }) := by
  refine ⟨rfl, ?_⟩
  intro h
  have hlen := congrArg List.length h
  simp [Command.get_options, Command.optionListOf, Command.add_option] at hlen

/-- C10: a `Shell` constructed with the default preferences
(`use_ipython=True`, `use_bpython=False`) parses an empty command line to
`no_ipython=False` and `bpython=True` — each default being the negation of
its preference — so `run` invoked with those parsed values takes the
BPython branch first (and never attempts IPython) even though the BPython
preference was configured off. -/
theorem shell_default_prefs_take_bpython_branch {κ : Type} (banner : String)
    (ctx : κ) (env : ShellEnv) :
    ((Shell.get_options
        { banner := banner, context := ctx, use_ipython := true,
          use_bpython := false }).map (fun o => parseStoreTrueFlag o []) =
      [false, true]) ∧
    ((Shell.run
        { bpythonAvailable := true, ipythonAvailable := env.ipythonAvailable }
        { banner := banner, context := ctx, use_ipython := true,
          use_bpython := false } false true).head? =
      some (ShellEv.bpythonEmbed banner ctx)) ∧
    (ShellEv.ipythonLaunch banner ctx ∉
      Shell.run env
        { banner := banner, context := ctx, use_ipython := true,
          use_bpython := false } false true) := by
  refine ⟨rfl, rfl, ?_⟩
  obtain ⟨ba, ia⟩ := env
  cases ba <;> cases ia <;> simp [Shell.run]

end FlaskScript
